import Mathlib

/-!
Verification of the attendance-consistency logic of a volunteer-event
management dashboard.

The development shallowly embeds:
* the two SQL counter functions `increment_filled_count` and
  `decrement_filled_count` (migration `20250324030853_solitary_bonus.sql`);
* the four mutations of `AssignVolunteersPage.tsx`
  (`createMutation`, `updateMutation`, `deleteMutation`,
  `toggleArrivalMutation`) and the `checkInMutation` of `CheckInPage.tsx`,
  as functions from failure oracles to the ordered list of backend calls
  they issue plus an overall success flag;
* the auto-checkout sweep `checkForExpiredShifts` of
  `useAutoCheckout.ts` (selection filter, processed-set eviction, and the
  evolution of the processed set across ticks);
* the proximity helper `isNearPosition` of `CheckInPage.tsx`;
* an abstract state machine combining the mutations with the store, used
  to verify the documented `filled`-tracking rule.
-/

namespace VolunteerApp

/-! ## SQL counter functions

`increment_filled_count` / `decrement_filled_count` update the `filled`
column of one `volunteer_positions` row:
`SET filled = filled + 1` resp. `SET filled = GREATEST(0, filled - 1)`.
The column is a (signed) SQL integer, modelled as `Int`. -/

/-- Effect of `increment_filled_count` on one row's `filled` value:
`filled + 1`, no upper bound. -/
def increment_filled_count (filled : Int) : Int :=
  filled + 1

/-- Effect of `decrement_filled_count` on one row's `filled` value:
`GREATEST(0, filled - 1)`. -/
def decrement_filled_count (filled : Int) : Int :=
  max 0 (filled - 1)

/-- One counter RPC issued against a position's `filled` column. -/
inductive CounterOp where
  | inc : CounterOp
  | dec : CounterOp
deriving DecidableEq, Repr

/-- Apply one counter RPC to a `filled` value. -/
def applyCounterOp (filled : Int) : CounterOp → Int
  | .inc => increment_filled_count filled
  | .dec => decrement_filled_count filled

/-- Apply a sequence of counter RPCs to a `filled` value, in order. -/
def applyCounterOps (filled : Int) (ops : List CounterOp) : Int :=
  ops.foldl applyCounterOp filled

/-! ## Table-level model of the backend store

A `volunteer_positions` row (the fields the counter logic touches) and a
`volunteer_signups` row (the fields the check-in logic touches).  The SQL
counter functions run `UPDATE ... WHERE id = position_id` and return
`void`; an `UPDATE` matching zero rows completes normally in plpgsql, so
the functions have no error branch for a missing position.  Likewise the
client's `.update(...).eq('id', x)` row update (without `.single()`)
reports no error when no row matches. -/

structure PositionRow where
  id : Nat
  needed : Int
  filled : Int
deriving DecidableEq, Repr

structure SignupRow where
  id : Nat
  position_id : Nat
  arrived : Bool
deriving DecidableEq, Repr

/-- `increment_filled_count(position_id)` over the whole table: updates
every row whose `id` matches (zero rows matching is not an error). -/
def sqlIncrementFilledCount (tbl : List PositionRow) (pid : Nat) :
    Except String (List PositionRow) :=
  .ok (tbl.map fun p =>
    if p.id = pid then { p with filled := increment_filled_count p.filled } else p)

/-- `decrement_filled_count(position_id)` over the whole table. -/
def sqlDecrementFilledCount (tbl : List PositionRow) (pid : Nat) :
    Except String (List PositionRow) :=
  .ok (tbl.map fun p =>
    if p.id = pid then { p with filled := decrement_filled_count p.filled } else p)

/-- The client-side signup arrival write:
`supabase.from('volunteer_signups').update({ arrived }).eq('id', sid)` —
updates matching rows, succeeds (with the table unchanged) when no row
matches. -/
def updateSignupArrived (tbl : List SignupRow) (sid : Nat) (arr : Bool) :
    Except String (List SignupRow) :=
  .ok (tbl.map fun s => if s.id = sid then { s with arrived := arr } else s)

/-! ## Effect-trace model of the page mutations

Each mutation is embedded as a function from a failure oracle (one `Bool`
per backend call it may issue, `true` = that call fails) to the ordered
list of backend calls actually issued, plus the overall outcome the
mutation reports (`true` = the mutation resolves successfully, `false` =
it throws).  This captures exactly what the claims are about: which calls
are issued, in which order, and which failures are swallowed. -/

/-- One backend call a page mutation can issue. -/
inductive DbCall where
  | insertSignup (position_id : Nat) (arrived : Bool) : DbCall
  | deleteSignup (signup_id : Nat) : DbCall
  | updateArrived (signup_id : Nat) (arrived : Bool) : DbCall
  | updateSignupRow (signup_id : Nat) : DbCall
  | rpcIncrement (position_id : Nat) : DbCall
  | rpcDecrement (position_id : Nat) : DbCall
deriving DecidableEq, Repr

/-- The volunteer-assignment form data of `AssignVolunteersPage.tsx`.
String fields; in the page's validation a field is missing when it is
falsy, i.e. the empty string. -/
structure VolunteerFormData where
  position_id : String
  volunteer_name : String
  phone_number : String
  start_time : String
  end_time : String
  other_notes : String
  organization : String
deriving DecidableEq, Repr

/-- The `createMutation` validation guard:
`!data.position_id || !data.volunteer_name || !data.phone_number ||
!data.start_time || !data.end_time`. -/
def missingRequiredField (d : VolunteerFormData) : Bool :=
  d.position_id = "" || d.volunteer_name = "" || d.phone_number = "" ||
    d.start_time = "" || d.end_time = ""

/-- `createMutation.mutationFn` of `AssignVolunteersPage.tsx`.
`pid` is the numeric key the form's `position_id` string resolves to in
the store (identifiers are opaque; the trace records the resolved key).
Validation failure throws before any backend call.  Otherwise the signup
is inserted with `arrived: false`; if the insert errors the mutation
throws; then `increment_filled_count` is invoked and its failure is only
logged (`Continuing despite RPC function failure`). -/
def createMutationFn (d : VolunteerFormData) (pid : Nat)
    (insertFails incFails : Bool) : List DbCall × Bool :=
  if missingRequiredField d then
    ([], false)
  else if insertFails then
    ([.insertSignup pid false], false)
  else
    ([.insertSignup pid false, .rpcIncrement pid], true)

/-- `updateMutation.mutationFn` of `AssignVolunteersPage.tsx`.
`newPos` is the (possibly absent) `position_id` of the partial update,
`oldPos` the editing volunteer's current position.  When
`data.position_id && data.position_id !== editingVolunteer.position_id`
(a present, truthy i.e. nonzero key, different from the old one) the old
position is decremented, the new one incremented — both failures only
logged — and then the signup row is updated; only a row-update error
makes the mutation throw. -/
def updateMutationFn (sid : Nat) (newPos : Option Nat) (oldPos : Nat)
    (decFails incFails rowFails : Bool) : List DbCall × Bool :=
  let rpcCalls :=
    match newPos with
    | some np =>
        if np ≠ 0 ∧ np ≠ oldPos then
          [DbCall.rpcDecrement oldPos, DbCall.rpcIncrement np]
        else []
    | none => []
  (rpcCalls ++ [DbCall.updateSignupRow sid], !rowFails)

/-- `deleteMutation.mutationFn` of `AssignVolunteersPage.tsx`: delete the
signup row (a row-delete error throws), then invoke
`decrement_filled_count(position_id)`, whose failure is only logged. -/
def deleteMutationFn (sid pid : Nat) (deleteFails decFails : Bool) :
    List DbCall × Bool :=
  if deleteFails then
    ([.deleteSignup sid], false)
  else
    ([.deleteSignup sid, .rpcDecrement pid], true)

/-- The delete-button click handler of `AssignVolunteersPage.tsx`:
`deleteMutation.mutate({ id: volunteer.id, position_id: volunteer.position_id })`
— the signup's `arrived` value is not consulted. -/
def deleteAssignmentClick (v : SignupRow) (deleteFails decFails : Bool) :
    List DbCall × Bool :=
  deleteMutationFn v.id v.position_id deleteFails decFails

/-- `toggleArrivalMutation.mutationFn` of `AssignVolunteersPage.tsx`:
write `arrived` on the signup row (an error there throws), then invoke
`increment_filled_count` when `arrived` is `true`, else
`decrement_filled_count`; either RPC failure is only logged
(`Continuing despite RPC function failure`) and the mutation still
succeeds. -/
def toggleArrivalMutationFn (sid : Nat) (arrived : Bool) (pid : Nat)
    (rowFails rpcFails : Bool) : List DbCall × Bool :=
  if rowFails then
    ([.updateArrived sid arrived], false)
  else
    ([.updateArrived sid arrived,
      if arrived then DbCall.rpcIncrement pid else DbCall.rpcDecrement pid],
     true)

/-- `checkInMutation.mutationFn` of `CheckInPage.tsx`: write `arrived` on
the signup row (an error there throws), then invoke the matching counter
RPC — but here an RPC error is re-thrown, so the mutation reports
failure.  In neither case is the `arrived` write rolled back. -/
def checkInMutationFn (sid : Nat) (arrived : Bool) (pid : Nat)
    (rowFails rpcFails : Bool) : List DbCall × Bool :=
  if rowFails then
    ([.updateArrived sid arrived], false)
  else
    ([.updateArrived sid arrived,
      if arrived then DbCall.rpcIncrement pid else DbCall.rpcDecrement pid],
     !rpcFails)

/-! ## Auto-checkout sweep (`useAutoCheckout.ts`)

`checkForExpiredShifts` runs once per tick over the currently loaded
volunteer list.  It first evicts from the in-memory processed set every
id no longer present in the list, then selects the volunteers to check
out, and (for each selected volunteer whose row update succeeds) adds the
id to the processed set. -/

/-- The volunteer shape consumed by `useAutoCheckout`. -/
structure SweepVolunteer where
  id : Nat
  position_id : Nat
  end_time : String
  arrived : Bool
deriving DecidableEq, Repr

/-- Splitting a character list at every occurrence of a separator, the
behavior of the JavaScript `String.prototype.split` with a one-character
separator (empty pieces are kept). -/
def splitOnChar (c : Char) : List Char → List (List Char)
  | [] => [[]]
  | x :: xs =>
      let r := splitOnChar c xs
      if x = c then [] :: r
      else
        match r with
        | [] => [[x]]
        | y :: ys => (x :: y) :: ys

/-- Decimal parsing of one split piece, the defined fragment of the
JavaScript `Number(...)` conversion the sweep applies to each piece. -/
def charsToNat? (cs : List Char) : Option Nat :=
  if cs ≠ [] ∧ cs.all (·.isDigit) then
    some (cs.foldl (fun n ch => n * 10 + (ch.toNat - '0'.toNat)) 0)
  else none

/-- `const [endHour, endMin] = end_time.split(':').map(Number);
endHour * 60 + endMin` for a well-formed `"HH:MM"` string. -/
def endTimeMinutes (end_time : String) : Int :=
  match (splitOnChar ':' end_time.toList).map
      (fun t => (((charsToNat? t).getD 0 : Nat) : Int)) with
  | h :: m :: _ => h * 60 + m
  | _ => 0

/-- The per-volunteer selection predicate of the sweep's `filter`:
currently checked in, not already processed this session, and
`0 ≤ currentTime - (endTime + bufferMinutes) ≤ maxLateCheckoutWindow`. -/
def sweepSelects (procd : List Nat) (currentTime bufferMinutes maxLateCheckoutWindow : Int)
    (v : SweepVolunteer) : Bool :=
  if !v.arrived then false
  else if decide (v.id ∈ procd) then false
  else
    let endTime := endTimeMinutes v.end_time
    let timeSinceShiftEnd := currentTime - (endTime + bufferMinutes)
    decide (0 ≤ timeSinceShiftEnd) && decide (timeSinceShiftEnd ≤ maxLateCheckoutWindow)

/-- `volunteersToCheckOut`: the filter over the loaded list. -/
def volunteersToCheckOut (procd : List Nat)
    (currentTime bufferMinutes maxLateCheckoutWindow : Int)
    (volunteers : List SweepVolunteer) : List SweepVolunteer :=
  volunteers.filter (sweepSelects procd currentTime bufferMinutes maxLateCheckoutWindow)

/-- The eviction pass at the top of each tick: every processed id that is
absent from the current volunteer list is deleted from the set. -/
def evictProcessed (procd : List Nat) (volunteers : List SweepVolunteer) : List Nat :=
  procd.filter (fun i => volunteers.any (fun v => v.id = i))

/-- One sweep tick: evict stale processed ids, select, attempt each
selected volunteer's `arrived := false` row update, and mark as processed
exactly the selected ids whose row update succeeded — on a row-update
error the handler returns before the processed-set add, while a
`decrement_filled_count` error after a successful row update does not
prevent the add.  `failedWrites` is the tick's failure oracle: the ids
whose row update errors.  Returns the selected volunteers and the
processed set after the tick. -/
def sweepTick (procd : List Nat) (volunteers : List SweepVolunteer)
    (currentTime bufferMinutes maxLateCheckoutWindow : Int)
    (failedWrites : List Nat) : List SweepVolunteer × List Nat :=
  let procd1 := evictProcessed procd volunteers
  let sel := volunteersToCheckOut procd1 currentTime bufferMinutes maxLateCheckoutWindow volunteers
  (sel, procd1 ++ (sel.filter (fun v => decide (v.id ∉ failedWrites))).map (·.id))

/-- One tick's input: the loaded volunteer list, the tick's
minutes-of-day time, and the ids whose `arrived` row update fails during
this tick. -/
structure TickInput where
  volunteers : List SweepVolunteer
  currentTime : Int
  failedWrites : List Nat
deriving Repr

/-- The ids selected at each successive tick of a session, starting from
processed set `procd`. -/
def sweepSelections (bufferMinutes maxLateCheckoutWindow : Int) :
    List Nat → List TickInput → List (List Nat)
  | _, [] => []
  | procd, t :: ts =>
      let st := sweepTick procd t.volunteers t.currentTime bufferMinutes
        maxLateCheckoutWindow t.failedWrites
      st.1.map (·.id) :: sweepSelections bufferMinutes maxLateCheckoutWindow st.2 ts

/-! ## Proximity helper (`CheckInPage.tsx`)

`isNearPosition` returns `true` when the user location or either position
coordinate is unavailable/falsy, and otherwise compares the computed
distance to a 200 m threshold.  The great-circle computation
(`calculateDistance`, floating-point trigonometry) is abstracted as the
function parameter `dist`. -/

/-- A latitude/longitude pair (coordinates modelled as rationals). -/
structure LatLng where
  lat : Rat
  lng : Rat
deriving DecidableEq, Repr

/-- `isNearPosition`: `true` when `!userLocation || !position.latitude ||
!position.longitude` (a coordinate equal to `0` is falsy, like a missing
one); otherwise `calculateDistance(...) <= 200`. -/
def isNearPosition (dist : LatLng → LatLng → Rat)
    (userLocation : Option LatLng) (posCoords : Option LatLng) : Bool :=
  match userLocation, posCoords with
  | some u, some p =>
      if p.lat = 0 ∨ p.lng = 0 then true
      else decide (dist u p ≤ 200)
  | _, _ => true

/-- The check-in page's state that feeds one volunteer's row: the
proximity flag only feeds the rendered message, while the button's
`onClick` leads (via the confirmation popup) to
`checkInMutation.mutate({ volunteerId: volunteer.id, arrived: !volunteer.arrived })`. -/
def checkInPageRow (dist : LatLng → LatLng → Rat)
    (userLocation posCoords : Option LatLng)
    (sid : Nat) (currentArrived : Bool) (pid : Nat)
    (rowFails rpcFails : Bool) : Bool × (List DbCall × Bool) :=
  (isNearPosition dist userLocation posCoords,
   checkInMutationFn sid (!currentArrived) pid rowFails rpcFails)

/-! ## Attendance state machine (one position)

The three mutations that the documented counter rule quantifies over —
`createMutation`, `deleteMutation`, `toggleArrivalMutation` — combined
with the store, specialised to the signups of one position.  The live
signup rows are a finite set of ids together with the subset currently
marked `arrived = true`; `filled` is the position's counter, mutated only
through `increment_filled_count` / `decrement_filled_count`.  An
operation is well formed when it is one the UI can issue: a create uses a
fresh id, a delete targets an existing signup, and an arrival toggle
targets an existing signup and flips its flag (`arrived: !volunteer.arrived`). -/

structure AttState where
  signups : Finset Nat
  arrivedSet : Finset Nat
  filled : Int
deriving DecidableEq

/-- One engine operation on the position. -/
inductive EngineOp where
  | createAssignment (sid : Nat) : EngineOp
  | deleteAssignment (sid : Nat) : EngineOp
  | setArrival (sid : Nat) (arrived : Bool) : EngineOp
deriving DecidableEq, Repr

/-- Well-formedness of one operation in a state. -/
def okOp (s : AttState) : EngineOp → Bool
  | .createAssignment sid => decide (sid ∉ s.signups)
  | .deleteAssignment sid => decide (sid ∈ s.signups)
  | .setArrival sid arrived =>
      decide (sid ∈ s.signups) &&
        (if arrived then decide (sid ∉ s.arrivedSet) else decide (sid ∈ s.arrivedSet))

/-- Effect of one operation: the row mutation plus the counter RPC the
mutation issues (`create` → insert + increment; `delete` → delete +
decrement; `setArrival b` → update + increment when `b`, else
decrement). -/
def applyOp (s : AttState) : EngineOp → AttState
  | .createAssignment sid =>
      ⟨insert sid s.signups, s.arrivedSet, increment_filled_count s.filled⟩
  | .deleteAssignment sid =>
      ⟨s.signups.erase sid, s.arrivedSet.erase sid, decrement_filled_count s.filled⟩
  | .setArrival sid arrived =>
      if arrived then
        ⟨s.signups, insert sid s.arrivedSet, increment_filled_count s.filled⟩
      else
        ⟨s.signups, s.arrivedSet.erase sid, decrement_filled_count s.filled⟩

/-- Run a trace of operations. -/
def execTrace (s : AttState) (ops : List EngineOp) : AttState :=
  ops.foldl applyOp s

/-- A trace is valid when each operation is well formed in the state it
runs in. -/
def validTrace (s : AttState) : List EngineOp → Bool
  | [] => true
  | op :: ops => okOp s op && validTrace (applyOp s op) ops

/-- The fresh position state: no signups, `filled = 0`. -/
def initState : AttState :=
  ⟨∅, ∅, 0⟩

/-- Number of signups created in a trace. -/
def countCreates (ops : List EngineOp) : Int :=
  (ops.countP fun op => match op with | .createAssignment _ => true | _ => false : Nat)

/-- Number of signups deleted in a trace. -/
def countDeletes (ops : List EngineOp) : Int :=
  (ops.countP fun op => match op with | .deleteAssignment _ => true | _ => false : Nat)

/-- Number of `arrived := true` toggles in a trace. -/
def countCheckIns (ops : List EngineOp) : Int :=
  (ops.countP fun op => match op with | .setArrival _ true => true | _ => false : Nat)

/-- Number of `arrived := false` toggles in a trace. -/
def countCheckOuts (ops : List EngineOp) : Int :=
  (ops.countP fun op => match op with | .setArrival _ false => true | _ => false : Nat)

/-! ## Shared helper lemmas -/

/-- Mapping a function that fixes every element of a list is the
identity on that list. -/
theorem map_fix_eq_self {α : Type} (f : α → α) (l : List α)
    (h : ∀ a ∈ l, f a = a) : l.map f = l := by
  induction l with
  | nil => rfl
  | cons a l ih =>
      simp only [List.map_cons]
      rw [h a (by simp), ih fun b hb => h b (List.mem_cons_of_mem _ hb)]

/-! ## Claim theorems -/

/-- Claim C2: for every position and every sequence of
`increment_filled_count` / `decrement_filled_count` calls, `filled` never
becomes negative; a decrement at `filled = 0` leaves `0`, and an
increment is unbounded (`filled + 1`, no cap). -/
theorem decrement_floored_increment_unbounded (f g : Int) (ops : List CounterOp)
    (h : 0 ≤ f) :
    0 ≤ applyCounterOps f ops ∧
    decrement_filled_count 0 = 0 ∧
    increment_filled_count g = g + 1 := by
  refine ⟨?_, rfl, rfl⟩
  induction ops generalizing f with
  | nil => exact h
  | cons op ops ih =>
      have hstep : 0 ≤ applyCounterOp f op := by
        cases op <;>
          simp only [applyCounterOp, increment_filled_count, decrement_filled_count,
            le_max_iff] <;> omega
      simpa only [applyCounterOps, List.foldl_cons] using ih (applyCounterOp f op) hstep

/-- Witness for C2 at `filled = 0` and the calls dec, dec, inc. -/
theorem decrement_floored_increment_unbounded_case :
    0 ≤ applyCounterOps 0 [CounterOp.dec, CounterOp.dec, CounterOp.inc] ∧
    decrement_filled_count 0 = 0 ∧
    increment_filled_count 5 = 5 + 1 :=
  decrement_floored_increment_unbounded 0 5
    [CounterOp.dec, CounterOp.dec, CounterOp.inc] (by decide)

/-- Claim C5: the delete-assignment operation deletes the signup row and
then invokes `decrement_filled_count(position_id)` unconditionally: the
issued call trace is `[deleteSignup, rpcDecrement]` and is unchanged when
the deleted signup's `arrived` value is replaced by any other value. -/
theorem delete_assignment_decrement_unconditional (v : SignupRow)
    (decFails b : Bool) :
    (deleteAssignmentClick v false decFails).1
      = [DbCall.deleteSignup v.id, DbCall.rpcDecrement v.position_id] ∧
    deleteAssignmentClick { v with arrived := b } false decFails
      = deleteAssignmentClick v false decFails := by
  constructor <;> simp [deleteAssignmentClick, deleteMutationFn]

/-- Claim C6: `createMutation` aborts with a validation error and issues
no backend call when a required field is missing; otherwise it inserts
the signup with `arrived = false` and then invokes
`increment_filled_count`, reporting success. -/
theorem create_assignment_validation_gate (d : VolunteerFormData) (pid : Nat)
    (insertFails incFails : Bool) :
    (missingRequiredField d = true →
      createMutationFn d pid insertFails incFails = ([], false)) ∧
    (missingRequiredField d = false →
      createMutationFn d pid false incFails
        = ([DbCall.insertSignup pid false, DbCall.rpcIncrement pid], true)) := by
  constructor <;> intro h <;> simp [createMutationFn, h]

/-- Witness for C6: an all-empty form is rejected with no calls issued; a
fully filled form leads to the insert-then-increment trace, even when the
increment RPC fails. -/
theorem create_assignment_validation_gate_cases :
    createMutationFn ⟨"", "", "", "", "", "", ""⟩ 7 false false = ([], false) ∧
    createMutationFn ⟨"p1", "Ada", "555", "08:00", "12:00", "", ""⟩ 7 false true
      = ([DbCall.insertSignup 7 false, DbCall.rpcIncrement 7], true) :=
  ⟨(create_assignment_validation_gate ⟨"", "", "", "", "", "", ""⟩ 7 false false).1 (by decide),
   (create_assignment_validation_gate ⟨"p1", "Ada", "555", "08:00", "12:00", "", ""⟩
      7 false true).2 (by decide)⟩

/-- Claim C7: when the edited assignment changes position, the mutation
issues `decrement_filled_count(oldPos)`, then
`increment_filled_count(newPos)`, then the signup-row update, in that
order, and reports success for every combination of counter-RPC failure
flags as long as the row update itself succeeds. -/
theorem move_assignment_rpc_order_and_success (sid np oldPos : Nat)
    (decFails incFails : Bool) (hnp : np ≠ 0) (hne : np ≠ oldPos) :
    updateMutationFn sid (some np) oldPos decFails incFails false
      = ([DbCall.rpcDecrement oldPos, DbCall.rpcIncrement np,
          DbCall.updateSignupRow sid], true) := by
  simp [updateMutationFn, hnp, hne]

/-- Witness for C7 with both counter RPCs failing. -/
theorem move_assignment_rpc_order_and_success_case :
    updateMutationFn 1 (some 2) 3 true true false
      = ([DbCall.rpcDecrement 3, DbCall.rpcIncrement 2,
          DbCall.updateSignupRow 1], true) :=
  move_assignment_rpc_order_and_success 1 2 3 true true (by decide) (by decide)

/-- Claim C8: when the `arrived` row write succeeds and the subsequent
counter RPC fails, the assignment-page toggle still reports success while
the check-in page's manual toggle reports failure, and in both call sites
the issued trace is exactly the `arrived` write followed by the counter
RPC — the `arrived` write is never rolled back. -/
theorem set_arrival_error_policy_split (sid pid : Nat) (arrived : Bool) :
    toggleArrivalMutationFn sid arrived pid false true
      = ([DbCall.updateArrived sid arrived,
          if arrived then DbCall.rpcIncrement pid else DbCall.rpcDecrement pid],
         true) ∧
    checkInMutationFn sid arrived pid false true
      = ([DbCall.updateArrived sid arrived,
          if arrived then DbCall.rpcIncrement pid else DbCall.rpcDecrement pid],
         false) := by
  constructor <;> simp [toggleArrivalMutationFn, checkInMutationFn]

/-- Counterexample to claim C9: at concrete absent identifiers, the
`arrived` row write, both counter RPCs, and the whole check-in mutation
all report success, not an error — the row update matches zero rows and
completes normally, and the SQL functions have no missing-row branch. -/
theorem absent_id_operations_succeed_cex :
    updateSignupArrived [⟨1, 2, false⟩] 42 true = .ok [⟨1, 2, false⟩] ∧
    sqlIncrementFilledCount [⟨3, 2, 0⟩] 7 = .ok [⟨3, 2, 0⟩] ∧
    sqlDecrementFilledCount [⟨3, 2, 0⟩] 7 = .ok [⟨3, 2, 0⟩] ∧
    (checkInMutationFn 42 true 7 false false).2 = true := by
  refine ⟨?_, ?_, ?_, rfl⟩ <;>
    simp [updateSignupArrived, sqlIncrementFilledCount, sqlDecrementFilledCount]

/-- Amended claim C9: operations that reference an absent signup or
position succeed as silent no-ops — the tables are returned unchanged
with an `ok` result, and no error is reported. -/
theorem absent_id_operations_noop (stbl : List SignupRow) (ptbl : List PositionRow)
    (sid pid : Nat) (arr : Bool)
    (hs : ∀ s ∈ stbl, s.id ≠ sid) (hp : ∀ p ∈ ptbl, p.id ≠ pid) :
    updateSignupArrived stbl sid arr = .ok stbl ∧
    sqlIncrementFilledCount ptbl pid = .ok ptbl ∧
    sqlDecrementFilledCount ptbl pid = .ok ptbl := by
  refine ⟨?_, ?_, ?_⟩
  · unfold updateSignupArrived
    rw [map_fix_eq_self _ _ fun s hmem => by simp [hs s hmem]]
  · unfold sqlIncrementFilledCount
    rw [map_fix_eq_self _ _ fun p hmem => by simp [hp p hmem]]
  · unfold sqlDecrementFilledCount
    rw [map_fix_eq_self _ _ fun p hmem => by simp [hp p hmem]]

/-- Witness for the amended C9 on concrete one-row tables. -/
theorem absent_id_operations_noop_case :
    updateSignupArrived [⟨1, 2, false⟩] 42 true = .ok [⟨1, 2, false⟩] ∧
    sqlIncrementFilledCount [⟨3, 2, 0⟩] 7 = .ok [⟨3, 2, 0⟩] ∧
    sqlDecrementFilledCount [⟨3, 2, 0⟩] 7 = .ok [⟨3, 2, 0⟩] :=
  absent_id_operations_noop [⟨1, 2, false⟩] [⟨3, 2, 0⟩] 42 7 true
    (by decide) (by decide)

/-- Claim C10: geolocation is advisory at the check-in interface — the
mutation part of a volunteer row is identical for every user location and
position-coordinate state, always equal to the manual check-in mutation
on `!arrived`; and `isNearPosition` is `true` whenever the user location
or the position coordinates are unavailable, otherwise it compares the
computed distance to the 200 m threshold. -/
theorem geolocation_advisory_check_in (dist : LatLng → LatLng → Rat)
    (u u2 p p2 : Option LatLng) (loc pc : LatLng)
    (sid pid : Nat) (arr rowFails rpcFails : Bool)
    (hlat : pc.lat ≠ 0) (hlng : pc.lng ≠ 0) :
    (checkInPageRow dist u p sid arr pid rowFails rpcFails).2
      = (checkInPageRow dist u2 p2 sid arr pid rowFails rpcFails).2 ∧
    (checkInPageRow dist u p sid arr pid rowFails rpcFails).2
      = checkInMutationFn sid (!arr) pid rowFails rpcFails ∧
    isNearPosition dist none p = true ∧
    isNearPosition dist u none = true ∧
    isNearPosition dist (some loc) (some pc) = decide (dist loc pc ≤ 200) := by
  refine ⟨rfl, rfl, ?_, ?_, ?_⟩
  · cases p <;> rfl
  · cases u <;> rfl
  · simp [isNearPosition, hlat, hlng]

/-- Witness for C10 at a constant-zero distance function and concrete
locations. -/
theorem geolocation_advisory_check_in_case :
    (checkInPageRow (fun _ _ => 0) none none 4 true 7 false false).2
      = (checkInPageRow (fun _ _ => 0) (some ⟨1, 1⟩) (some ⟨1, 1⟩) 4 true 7 false false).2 ∧
    (checkInPageRow (fun _ _ => 0) none none 4 true 7 false false).2
      = checkInMutationFn 4 (!true) 7 false false ∧
    isNearPosition (fun _ _ => 0) none none = true ∧
    isNearPosition (fun _ _ => 0) none none = true ∧
    isNearPosition (fun _ _ => 0) (some ⟨2, 2⟩) (some ⟨1, 1⟩)
      = decide ((fun _ _ => (0 : Rat)) (⟨2, 2⟩ : LatLng) (⟨1, 1⟩ : LatLng) ≤ 200) :=
  geolocation_advisory_check_in (fun _ _ => 0) none none none none ⟨2, 2⟩ ⟨1, 1⟩
    4 7 true false false (by decide) (by decide)

/-- Unfolding characterization of the sweep's per-volunteer selection
predicate. -/
theorem sweepSelects_eq_true_iff (procd : List Nat) (T buf maxLate : Int)
    (v : SweepVolunteer) :
    sweepSelects procd T buf maxLate v = true ↔
      v.arrived = true ∧ v.id ∉ procd ∧
        0 ≤ T - (endTimeMinutes v.end_time + buf) ∧
        T - (endTimeMinutes v.end_time + buf) ≤ maxLate := by
  cases harr : v.arrived
  · simp [sweepSelects, harr]
  · by_cases hmem : v.id ∈ procd <;> simp [sweepSelects, harr, hmem]

/-- Claim C3: the sweep selects a signup for checkout iff it is marked
arrived, not yet processed this session, and the tick time lies in the
closed window `[end + buffer, end + buffer + maxLateWindow]` measured in
minutes of day. -/
theorem sweep_selection_characterization (procd : List Nat)
    (T buf maxLate : Int) (volunteers : List SweepVolunteer)
    (v : SweepVolunteer) :
    v ∈ volunteersToCheckOut procd T buf maxLate volunteers ↔
      v ∈ volunteers ∧ v.arrived = true ∧ v.id ∉ procd ∧
        0 ≤ T - (endTimeMinutes v.end_time + buf) ∧
        T - (endTimeMinutes v.end_time + buf) ≤ maxLate := by
  rw [volunteersToCheckOut, List.mem_filter, sweepSelects_eq_true_iff]

/-- Witness for C3 with `end_time = "08:00"`, `buffer = 1`,
`maxLateWindow = 30`: selected at exactly `T = 481` and `T = 511`, not
selected at `T = 512`. -/
theorem sweep_selection_characterization_bounds :
    (⟨1, 2, "08:00", true⟩ : SweepVolunteer)
        ∈ volunteersToCheckOut [] 481 1 30 [⟨1, 2, "08:00", true⟩] ∧
    (⟨1, 2, "08:00", true⟩ : SweepVolunteer)
        ∈ volunteersToCheckOut [] 511 1 30 [⟨1, 2, "08:00", true⟩] ∧
    (⟨1, 2, "08:00", true⟩ : SweepVolunteer)
        ∉ volunteersToCheckOut [] 512 1 30 [⟨1, 2, "08:00", true⟩] :=
  ⟨(sweep_selection_characterization [] 481 1 30 _ _).mpr (by decide),
   (sweep_selection_characterization [] 511 1 30 _ _).mpr (by decide),
   fun h => by
     have h2 := (sweep_selection_characterization [] 512 1 30 _ _).mp h
     revert h2
     decide⟩

/-- Eviction characterization: an id survives the eviction pass iff it
was processed and still occurs in the current volunteer list. -/
theorem mem_evictProcessed (procd : List Nat) (vols : List SweepVolunteer)
    (i : Nat) :
    i ∈ evictProcessed procd vols ↔ i ∈ procd ∧ i ∈ vols.map (·.id) := by
  simp [evictProcessed, List.mem_filter, List.any_eq_true, List.mem_map]

/-- A processed id is never among the selected ids of a tick. -/
theorem not_selected_of_processed (procd1 : List Nat) (T buf maxLate : Int)
    (vols : List SweepVolunteer) (i : Nat) (h : i ∈ procd1) :
    i ∉ (volunteersToCheckOut procd1 T buf maxLate vols).map (·.id) := by
  intro hmem
  rcases List.mem_map.mp hmem with ⟨v, hvsel, hvid⟩
  have h2 := (List.mem_filter.mp hvsel).2
  have h3 := (sweepSelects_eq_true_iff procd1 T buf maxLate v).mp h2
  exact h3.2.1 (hvid ▸ h)

/-- An id that is processed at the start of a run and present in every
input list up to tick `i` is not selected at tick `i`. -/
theorem processed_stays_unselected (buf maxLate : Int) :
    ∀ (ts : List TickInput) (procd : List Nat) (i sid : Nat),
      sid ∈ procd →
      (∀ k, k ≤ i → sid ∈ ((ts.getD k ⟨[], 0, []⟩).volunteers.map (·.id))) →
      i < ts.length →
      sid ∉ (sweepSelections buf maxLate procd ts).getD i [] := by
  intro ts
  induction ts with
  | nil => intro procd i sid _ _ hi; simp at hi
  | cons t ts ih =>
      intro procd i sid hmem hpres hi
      have hpres0 : sid ∈ t.volunteers.map (·.id) := by
        simpa using hpres 0 (Nat.zero_le _)
      have hmem1 : sid ∈ evictProcessed procd t.volunteers :=
        (mem_evictProcessed procd t.volunteers sid).mpr ⟨hmem, hpres0⟩
      cases i with
      | zero =>
          simp only [sweepSelections, List.getD_cons_zero]
          exact not_selected_of_processed _ _ _ _ _ _ hmem1
      | succ n =>
          simp only [sweepSelections, List.getD_cons_succ]
          refine ih _ n sid (List.mem_append_left _ hmem1) ?_ ?_
          · intro k hk
            simpa [List.getD_cons_succ] using hpres (k + 1) (by omega)
          · simpa using hi

/-- Core of the idempotence property, for an arbitrary initial processed
set: an id selected at tick `i` whose `arrived` row update succeeds
there, and that stays in every later input list through tick `j`, is not
selected at tick `j`. -/
theorem selected_not_reselected (buf maxLate : Int) :
    ∀ (ts : List TickInput) (procd : List Nat) (i j sid : Nat),
      i < j → j < ts.length →
      sid ∈ (sweepSelections buf maxLate procd ts).getD i [] →
      sid ∉ (ts.getD i ⟨[], 0, []⟩).failedWrites →
      (∀ k, i < k → k ≤ j → sid ∈ ((ts.getD k ⟨[], 0, []⟩).volunteers.map (·.id))) →
      sid ∉ (sweepSelections buf maxLate procd ts).getD j [] := by
  intro ts
  induction ts with
  | nil => intro procd i j sid _ hj _ _ _; simp at hj
  | cons t ts ih =>
      intro procd i j sid hij hj hsel hwr hpres
      cases j with
      | zero => omega
      | succ m =>
          cases i with
          | zero =>
              have hsel0 : sid ∈
                  (sweepTick procd t.volunteers t.currentTime buf maxLate
                    t.failedWrites).1.map (·.id) := by
                simpa only [sweepSelections, List.getD_cons_zero] using hsel
              have hwr0 : sid ∉ t.failedWrites := by
                simpa only [List.getD_cons_zero] using hwr
              have hmem2 : sid ∈
                  (sweepTick procd t.volunteers t.currentTime buf maxLate
                    t.failedWrites).2 := by
                rcases List.mem_map.mp hsel0 with ⟨v, hv, hvid⟩
                have hvnf : v.id ∉ t.failedWrites := by rw [hvid]; exact hwr0
                exact List.mem_append_right _
                  (List.mem_map.mpr
                    ⟨v, List.mem_filter.mpr ⟨hv, decide_eq_true hvnf⟩, hvid⟩)
              simp only [sweepSelections, List.getD_cons_succ]
              refine processed_stays_unselected buf maxLate ts _ m sid hmem2 ?_ ?_
              · intro k hk
                simpa [List.getD_cons_succ] using hpres (k + 1) (by omega) (by omega)
              · simpa using hj
          | succ n =>
              simp only [sweepSelections, List.getD_cons_succ]
              refine ih _ n m sid (by omega) (by simpa using hj) ?_ ?_ ?_
              · simpa only [sweepSelections, List.getD_cons_succ] using hsel
              · simpa only [List.getD_cons_succ] using hwr
              · intro k hk1 hk2
                simpa [List.getD_cons_succ] using hpres (k + 1) (by omega) (by omega)

/-- A concrete volunteer used in the C4 sessions. -/
def demoSweepVolunteer : SweepVolunteer :=
  ⟨1, 2, "08:00", true⟩

/-- A two-tick session in which the volunteer's `arrived` row update
fails at tick 0 (so the processed-set add is skipped) and the volunteer
stays loaded, still arrived, at tick 1. -/
def failDemoTicks : List TickInput :=
  [⟨[demoSweepVolunteer], 481, [1]⟩, ⟨[demoSweepVolunteer], 482, []⟩]

/-- Counterexample to claim C4 as stated: when the selected volunteer's
`arrived` row update fails at tick 0, the handler returns before the
processed-set add, so the same signup — present in every input list of
the session — is selected again at tick 1. -/
theorem sweep_reselects_after_failed_write_cex :
    1 ∈ (sweepSelections 1 30 [] failDemoTicks).getD 0 [] ∧
    1 ∈ (sweepSelections 1 30 [] failDemoTicks).getD 1 [] ∧
    (∀ t ∈ failDemoTicks, 1 ∈ t.volunteers.map (·.id)) :=
  ⟨by decide, by decide, by decide⟩

/-- Amended claim C4: within one continuous session (initial processed
set empty), a signup selected at tick `i` whose `arrived` row update
succeeds there, and that remains present in every subsequent input list
through tick `j`, is not selected again at tick `j` (after a failed row
update the signup is selected again); and the eviction pass removes a
processed-set entry exactly when its id is absent from the current input
list. -/
theorem sweep_idempotent_per_session_on_success (buf maxLate : Int)
    (ts : List TickInput) (sid i j : Nat) (procd : List Nat)
    (vols : List SweepVolunteer)
    (hij : i < j) (hj : j < ts.length)
    (hsel : sid ∈ (sweepSelections buf maxLate [] ts).getD i [])
    (hwr : sid ∉ (ts.getD i ⟨[], 0, []⟩).failedWrites)
    (hpres : ∀ k, i < k → k ≤ j →
      sid ∈ ((ts.getD k ⟨[], 0, []⟩).volunteers.map (·.id))) :
    sid ∉ (sweepSelections buf maxLate [] ts).getD j [] ∧
    (sid ∈ evictProcessed procd vols ↔ sid ∈ procd ∧ sid ∈ vols.map (·.id)) :=
  ⟨selected_not_reselected buf maxLate ts [] i j sid hij hj hsel hwr hpres,
   mem_evictProcessed procd vols sid⟩

/-- A two-tick session over the same still-loaded volunteer list, with
every row update succeeding. -/
def demoTicks : List TickInput :=
  [⟨[demoSweepVolunteer], 481, []⟩, ⟨[demoSweepVolunteer], 482, []⟩]

/-- Witness for the amended C4: in the all-success two-tick session the
volunteer selected at tick 0 is not selected at tick 1, and eviction
keeps an id present in the list. -/
theorem sweep_idempotent_per_session_on_success_demo :
    1 ∉ (sweepSelections 1 30 [] demoTicks).getD 1 [] ∧
    (1 ∈ evictProcessed [1] [demoSweepVolunteer] ↔
      1 ∈ [1] ∧ 1 ∈ [demoSweepVolunteer].map (·.id)) :=
  sweep_idempotent_per_session_on_success 1 30 demoTicks 1 0 1 [1]
    [demoSweepVolunteer]
    (by decide) (by decide) (by decide) (by decide)
    (fun k hk1 hk2 => by
      have hk : k = 1 := by omega
      subst hk
      decide)

/-- The counter-RPC contribution of one engine operation: `+1` for the
increments (create, check-in), `-1` for the decrements (delete,
check-out). -/
def rpcDelta : EngineOp → Int
  | .createAssignment _ => 1
  | .deleteAssignment _ => -1
  | .setArrival _ true => 1
  | .setArrival _ false => -1

/-- Invariant carried through every valid trace: the arrived set is a
subset of the live signups, and `filled` dominates the number of live
signups plus the number of arrived ones (so no decrement ever hits the
`GREATEST(0, ...)` floor). -/
def attInv (s : AttState) : Prop :=
  s.arrivedSet ⊆ s.signups ∧
    (s.signups.card : Int) + (s.arrivedSet.card : Int) ≤ s.filled

/-- One well-formed operation moves `filled` by exactly its RPC delta and
preserves the invariant. -/
theorem attInv_step (s : AttState) (op : EngineOp) (hInv : attInv s)
    (hok : okOp s op = true) :
    (applyOp s op).filled = s.filled + rpcDelta op ∧ attInv (applyOp s op) := by
  obtain ⟨hsub, hcard⟩ := hInv
  cases op with
  | createAssignment sid =>
      have hni : sid ∉ s.signups := by simpa [okOp] using hok
      have hci : (insert sid s.signups).card = s.signups.card + 1 :=
        Finset.card_insert_of_not_mem hni
      refine ⟨?_, ?_, ?_⟩
      · show increment_filled_count s.filled
          = s.filled + rpcDelta (.createAssignment sid)
        rw [increment_filled_count, rpcDelta]
      · show s.arrivedSet ⊆ insert sid s.signups
        exact hsub.trans (Finset.subset_insert _ _)
      · show ((insert sid s.signups).card : Int) + (s.arrivedSet.card : Int)
          ≤ increment_filled_count s.filled
        rw [hci, increment_filled_count]
        push_cast
        omega
  | deleteAssignment sid =>
      have hmem : sid ∈ s.signups := by simpa [okOp] using hok
      have hpos : 1 ≤ s.signups.card := Finset.card_pos.mpr ⟨sid, hmem⟩
      have hsc := Finset.card_erase_of_mem hmem
      have hac : (s.arrivedSet.erase sid).card ≤ s.arrivedSet.card :=
        Finset.card_erase_le
      have hdec : decrement_filled_count s.filled = s.filled - 1 := by
        rw [decrement_filled_count, max_eq_right (by omega)]
      refine ⟨?_, ?_, ?_⟩
      · show decrement_filled_count s.filled
          = s.filled + rpcDelta (.deleteAssignment sid)
        rw [hdec, rpcDelta]
        omega
      · show s.arrivedSet.erase sid ⊆ s.signups.erase sid
        exact Finset.erase_subset_erase _ hsub
      · show ((s.signups.erase sid).card : Int) + ((s.arrivedSet.erase sid).card : Int)
          ≤ decrement_filled_count s.filled
        rw [hdec, hsc]
        omega
  | setArrival sid b =>
      cases b with
      | true =>
          have hok2 : sid ∈ s.signups ∧ sid ∉ s.arrivedSet := by
            simpa [okOp] using hok
          have hci : (insert sid s.arrivedSet).card = s.arrivedSet.card + 1 :=
            Finset.card_insert_of_not_mem hok2.2
          refine ⟨?_, ?_, ?_⟩
          · show increment_filled_count s.filled
              = s.filled + rpcDelta (.setArrival sid true)
            rw [increment_filled_count, rpcDelta]
          · show insert sid s.arrivedSet ⊆ s.signups
            exact Finset.insert_subset_iff.mpr ⟨hok2.1, hsub⟩
          · show (s.signups.card : Int) + ((insert sid s.arrivedSet).card : Int)
              ≤ increment_filled_count s.filled
            rw [hci, increment_filled_count]
            push_cast
            omega
      | false =>
          have hok2 : sid ∈ s.signups ∧ sid ∈ s.arrivedSet := by
            simpa [okOp] using hok
          have hapos : 1 ≤ s.arrivedSet.card := Finset.card_pos.mpr ⟨sid, hok2.2⟩
          have hac := Finset.card_erase_of_mem hok2.2
          have hdec : decrement_filled_count s.filled = s.filled - 1 := by
            rw [decrement_filled_count, max_eq_right (by omega)]
          refine ⟨?_, ?_, ?_⟩
          · show decrement_filled_count s.filled
              = s.filled + rpcDelta (.setArrival sid false)
            rw [hdec, rpcDelta]
            omega
          · show s.arrivedSet.erase sid ⊆ s.signups
            exact (Finset.erase_subset _ _).trans hsub
          · show (s.signups.card : Int) + ((s.arrivedSet.erase sid).card : Int)
              ≤ decrement_filled_count s.filled
            rw [hdec, hac]
            omega

/-- Along a valid trace, `filled` moves by exactly the sum of the
RPC deltas, and the invariant is preserved. -/
theorem execTrace_filled (ops : List EngineOp) :
    ∀ s, attInv s → validTrace s ops = true →
      (execTrace s ops).filled = s.filled + (ops.map rpcDelta).sum ∧
        attInv (execTrace s ops) := by
  induction ops with
  | nil =>
      intro s h _
      exact ⟨by simp [execTrace], h⟩
  | cons op ops ih =>
      intro s hInv hval
      have hval2 : okOp s op = true ∧ validTrace (applyOp s op) ops = true := by
        simpa [validTrace, Bool.and_eq_true] using hval
      obtain ⟨hstep, hInv2⟩ := attInv_step s op hInv hval2.1
      obtain ⟨ih1, ih2⟩ := ih (applyOp s op) hInv2 hval2.2
      constructor
      · have hexec : execTrace s (op :: ops) = execTrace (applyOp s op) ops := by
          simp [execTrace]
        rw [hexec, ih1, hstep]
        simp only [List.map_cons, List.sum_cons]
        ring
      · simpa [execTrace] using ih2

/-- The RPC-delta sum of a trace equals the documented arithmetic
combination of its operation counts. -/
theorem rpcDelta_sum_eq_counts (ops : List EngineOp) :
    (ops.map rpcDelta).sum =
      countCreates ops - countDeletes ops + countCheckIns ops - countCheckOuts ops := by
  induction ops with
  | nil => simp [countCreates, countDeletes, countCheckIns, countCheckOuts]
  | cons op ops ih =>
      cases op with
      | createAssignment sid =>
          simp only [List.map_cons, List.sum_cons, countCreates, countDeletes,
            countCheckIns, countCheckOuts, List.countP_cons, rpcDelta] at ih ⊢
          simp only [if_pos, if_neg]
          push_cast
          omega
      | deleteAssignment sid =>
          simp only [List.map_cons, List.sum_cons, countCreates, countDeletes,
            countCheckIns, countCheckOuts, List.countP_cons, rpcDelta] at ih ⊢
          push_cast
          omega
      | setArrival sid b =>
          cases b <;>
            simp only [List.map_cons, List.sum_cons, countCreates, countDeletes,
              countCheckIns, countCheckOuts, List.countP_cons, rpcDelta] at ih ⊢ <;>
            push_cast <;>
            omega

/-- Claim C1: along every valid trace of create/delete/set-arrival
operations in which every row mutation and counter RPC succeeds, the
position's `filled` equals (# signups created) − (# signups deleted)
+ (# arrived-true toggles) − (# arrived-false toggles), i.e. it tracks
the counter-RPC call count exactly. -/
theorem filled_tracks_rpc_call_count (ops : List EngineOp)
    (h : validTrace initState ops = true) :
    (execTrace initState ops).filled
      = countCreates ops - countDeletes ops + countCheckIns ops - countCheckOuts ops := by
  have hInv : attInv initState := by
    constructor <;> simp [initState, attInv]
  have hmain := (execTrace_filled ops initState hInv h).1
  rw [hmain, rpcDelta_sum_eq_counts]
  simp [initState]

/-- The spec's five-step story: assign A, assign B, check in A, check out
A, delete B's signup. -/
def demoOps : List EngineOp :=
  [EngineOp.createAssignment 1, EngineOp.createAssignment 2,
   EngineOp.setArrival 1 true, EngineOp.setArrival 1 false,
   EngineOp.deleteAssignment 2]

/-- Witness for C1 on the five-step story: the trace is valid, `filled`
takes the values 1, 2, 3, 2, 1 after its successive prefixes, and the
final value also follows from the tracking theorem. -/
theorem filled_tracks_rpc_call_count_demo :
    validTrace initState demoOps = true ∧
    (execTrace initState (demoOps.take 1)).filled = 1 ∧
    (execTrace initState (demoOps.take 2)).filled = 2 ∧
    (execTrace initState (demoOps.take 3)).filled = 3 ∧
    (execTrace initState (demoOps.take 4)).filled = 2 ∧
    (execTrace initState demoOps).filled = 1 :=
  ⟨by decide, by decide, by decide, by decide, by decide,
   (filled_tracks_rpc_call_count demoOps (by decide)).trans (by decide)⟩

end VolunteerApp
